import Mathlib

/-!
Shallow embedding of the SITL instance-lifecycle manager
(`app/sitl/px4_engine.py` and `app/sitl/manager.py`).

Pure state is modelled explicitly: the engine's `instances` dict is an
association list, the port sets are `Finset ℕ`, OS process handles are
natural numbers drawn from a counter, and the behaviour of the external
environment (process liveness, termination failures, the preset catalog,
router availability) is passed in as an explicit environment record.
Python exceptions are modelled by `Except` results; the `UnboundLocalError`
raised by `start_instance`'s cleanup handler when the port variable was
never assigned is modelled by the `unboundLocal` error constructor.
-/

namespace CloudSITL

/-- One entry of the aircraft preset catalog, as produced by
`PX4Engine.get_available_aircraft`. -/
structure Aircraft where
  name : String
  description : String
  gazebo_target : String
  autostart_id : String
deriving DecidableEq

/-- The built-in default aircraft catalog from `get_available_aircraft`
(used when no config file is present). -/
def defaultAircraft : List Aircraft :=
  [⟨"x500", "X500 Quadrotor", "gz_x500", "4001"⟩,
   ⟨"standard_vtol", "Standard VTOL", "gz_standard_vtol", "4004"⟩,
   ⟨"rc_cessna", "RC Cessna Plane", "gz_rc_cessna", "4003"⟩,
   ⟨"rover_differential", "Differential Rover", "gz_rover_differential", "50000"⟩]

/-- `self.available_ports = set(range(14550, 14600))`. -/
def availablePorts : Finset ℕ := Finset.Ico 14550 14600

/-- Errors raised by the engine's start path.  `unboundLocal ctx` models the
`UnboundLocalError` raised inside the `except` handler of `start_instance`
when `port` was never assigned; `ctx` is the implicitly chained original
exception. -/
inductive StartErr where
  | duplicateInstance : StartErr
  | noPorts : StartErr
  | unknownVehicle : String → StartErr
  | launchFailed : String → StartErr
  | routerNotFound : StartErr
  | routerFailed : String → StartErr
  | unboundLocal : StartErr → StartErr
deriving DecidableEq

/-- `PX4Engine.get_next_available_port`: take the minimum of
`available_ports - used_ports`, add it to `used_ports`; raise if empty. -/
def get_next_available_port (used : Finset ℕ) : Except StartErr (ℕ × Finset ℕ) :=
  if h : (availablePorts \ used).Nonempty then
    .ok ((availablePorts \ used).min' h, insert ((availablePorts \ used).min' h) used)
  else
    .error .noPorts

/-- `PX4Engine.release_port`: `self.used_ports.discard(port)`. -/
def release_port (used : Finset ℕ) (port : ℕ) : Finset ℕ := used.erase port

/-- The `PX4Instance` dataclass.  Process handles are naturals. -/
structure PX4Instance where
  instance_id : String
  aircraft_type : String
  port : ℕ
  process : ℕ
  mavlink_router_process : Option ℕ
  status : String
  created_at : ℕ
  last_heartbeat : ℕ
deriving DecidableEq

/-- The mutable state of a `PX4Engine`: the instance table, the leased
port set, and a counter supplying fresh OS process handles. -/
structure EngineState where
  instances : List (String × PX4Instance)
  used_ports : Finset ℕ
  nextHandle : ℕ
deriving DecidableEq

/-- A freshly constructed engine: no instances, no leased ports. -/
def initEngine : EngineState := ⟨[], ∅, 0⟩

/-- Environment of one `start_instance` call: the preset catalog, the
primary process's liveness at each 1-second poll, its captured stderr,
and whether the MAVLink router binary exists / survives its 1s check. -/
structure StartEnv where
  catalog : List Aircraft
  px4Alive : ℕ → Bool
  px4Stderr : String
  routerFound : Bool
  routerAlive : Bool
  routerStderr : String

/-- `catalog` lookup by name done at the top of `_start_px4_process`. -/
def findAircraft (catalog : List Aircraft) (t : String) : Option Aircraft :=
  catalog.find? (fun a => a.name == t)

/-- The startup-verification loop of `_start_px4_process`:
`for i in range(10): sleep(1); if process.poll() is not None: raise`.
Returns `true` when the process stayed alive at every poll. -/
def pollStartup (alive : ℕ → Bool) (i fuel : ℕ) : Bool :=
  match fuel with
  | 0 => true
  | f + 1 => if alive i then pollStartup alive (i + 1) f else false

/-- `PX4Engine._start_px4_process`: resolve the preset (raising
`ValueError` for an unknown aircraft before spawning), spawn, then run the
10-poll startup verification.  The `Bool` records whether a process was
spawned during the call. -/
def start_px4_process (env : StartEnv) (t : String) : Except StartErr Unit × Bool :=
  match findAircraft env.catalog t with
  | none => (.error (.unknownVehicle t), false)
  | some _ =>
      if pollStartup env.px4Alive 0 10 then (.ok (), true)
      else (.error (.launchFailed env.px4Stderr), true)

/-- `PX4Engine._start_mavlink_router`: raise if the binary is missing
(nothing spawned), else spawn, sleep 1s, and raise if it already exited. -/
def start_mavlink_router (env : StartEnv) : Except StartErr Unit × Bool :=
  if env.routerFound then
    if env.routerAlive then (.ok (), true)
    else (.error (.routerFailed env.routerStderr), true)
  else (.error .routerNotFound, false)

instance exceptDecEq {ε α : Type} [DecidableEq ε] [DecidableEq α] :
    DecidableEq (Except ε α) := fun a b =>
  match a, b with
  | .ok x, .ok y =>
      if h : x = y then .isTrue (by rw [h])
      else .isFalse (by intro he; cases he; exact h rfl)
  | .error x, .error y =>
      if h : x = y then .isTrue (by rw [h])
      else .isFalse (by intro he; cases he; exact h rfl)
  | .ok _, .error _ => .isFalse (by intro he; cases he)
  | .error _, .ok _ => .isFalse (by intro he; cases he)

/-- Outcome of a `start_instance` call: the returned id or raised error,
the engine state afterwards, which processes were spawned during the call,
and which handles had the termination protocol applied to them (spawning
code never terminates anything, so `terminated` is always empty). -/
structure StartResult where
  res : Except StartErr String
  state : EngineState
  px4Spawned : Option ℕ
  routerSpawned : Option ℕ
  terminated : List ℕ
deriving DecidableEq

/-- `PX4Engine.start_instance`.  The duplicate-id `ValueError` is raised
before the `try` block.  Inside the `try`: acquire a port, start the PX4
process, start the router, register the record with status `"running"`.
The `except` handler runs `self.release_port(port); raise` — when the
allocator itself raised, `port` is unbound and the handler raises
`UnboundLocalError` (chaining the original) instead. -/
def start_instance (env : StartEnv) (st : EngineState) (aircraft_type : String)
    (instance_id : Option String) (now : ℕ) : StartResult :=
  let iid := instance_id.getD (aircraft_type ++ "_" ++ toString now)
  if (st.instances.lookup iid).isSome then
    ⟨.error .duplicateInstance, st, none, none, []⟩
  else
    match get_next_available_port st.used_ports with
    | .error e => ⟨.error (.unboundLocal e), st, none, none, []⟩
    | .ok (port, used1) =>
      match start_px4_process env aircraft_type with
      | (.error e, spawned) =>
          ⟨.error e,
           { st with used_ports := release_port used1 port,
                     nextHandle := if spawned then st.nextHandle + 1 else st.nextHandle },
           if spawned then some st.nextHandle else none, none, []⟩
      | (.ok _, _) =>
        match start_mavlink_router env with
        | (.error e, rspawned) =>
            ⟨.error e,
             { st with used_ports := release_port used1 port,
                       nextHandle := if rspawned then st.nextHandle + 2 else st.nextHandle + 1 },
             some st.nextHandle,
             if rspawned then some (st.nextHandle + 1) else none, []⟩
        | (.ok _, _) =>
            ⟨.ok iid,
             ⟨(iid, ⟨iid, aircraft_type, port, st.nextHandle, some (st.nextHandle + 1),
                     "running", now, now⟩) :: st.instances,
              used1, st.nextHandle + 2⟩,
             some st.nextHandle, some (st.nextHandle + 1), []⟩

/-- Environment of a stop: whether `_terminate_process` raises on a given
handle (it normally swallows `ProcessLookupError`, but e.g. a permission
error from `os.killpg` escapes). -/
structure StopEnv where
  termFails : ℕ → Bool

/-- Outcome of `stop_instance`: the returned `bool`, the state afterwards,
and the handles whose termination protocol completed. -/
structure StopResult where
  ok : Bool
  state : EngineState
  terminated : List ℕ
deriving DecidableEq

/-- `PX4Engine.stop_instance`: unknown id returns `False`; otherwise one
`try` block terminates the router, then the primary, releases the port and
deletes the record; any exception makes the whole call return `False`
with everything after the raising step skipped. -/
def stop_instance (env : StopEnv) (st : EngineState) (iid : String) : StopResult :=
  match st.instances.lookup iid with
  | none => ⟨false, st, []⟩
  | some inst =>
    match inst.mavlink_router_process with
    | some hr =>
      if env.termFails hr then ⟨false, st, []⟩
      else if env.termFails inst.process then ⟨false, st, [hr]⟩
      else
        ⟨true,
         ⟨st.instances.filter (fun e => e.1 != iid),
          release_port st.used_ports inst.port, st.nextHandle⟩,
         [hr, inst.process]⟩
    | none =>
      if env.termFails inst.process then ⟨false, st, []⟩
      else
        ⟨true,
         ⟨st.instances.filter (fun e => e.1 != iid),
          release_port st.used_ports inst.port, st.nextHandle⟩,
         [inst.process]⟩

/-- Environment of one monitor iteration: process liveness and whether
termination raises, as in `StopEnv`. -/
structure MonitorEnv where
  alive : ℕ → Bool
  termFails : ℕ → Bool

/-- In-place mutation of one instance record in the table
(`instance.status = ...` style field assignments). -/
def updateInstances (l : List (String × PX4Instance)) (iid : String)
    (f : PX4Instance → PX4Instance) : List (String × PX4Instance) :=
  l.map (fun e => if e.1 == iid then (e.1, f e.2) else e)

/-- One iteration of `PX4Engine._monitor_instance`'s while loop: if the id
is gone the loop ends (state unchanged); if either owned process is dead,
set status `"failed"` and run the same `stop_instance` path; otherwise
update `last_heartbeat` and promote `"starting"` to `"running"`. -/
def monitor_step (env : MonitorEnv) (now : ℕ) (st : EngineState) (iid : String) :
    EngineState × List ℕ :=
  match st.instances.lookup iid with
  | none => (st, [])
  | some inst =>
    let px4_running := env.alive inst.process
    let mavlink_running :=
      match inst.mavlink_router_process with
      | some hr => env.alive hr
      | none => false
    if !px4_running || !mavlink_running then
      let st' : EngineState :=
        { st with instances :=
            updateInstances st.instances iid (fun i => { i with status := "failed" }) }
      let r := stop_instance ⟨env.termFails⟩ st' iid
      (r.state, r.terminated)
    else
      let upd : PX4Instance → PX4Instance := fun i =>
        { i with last_heartbeat := now,
                 status := if i.status == "starting" then "running" else i.status }
      ({ st with instances := updateInstances st.instances iid upd }, [])

/-- An operation on one engine: an explicit `start_instance` or
`stop_instance` call, or one iteration of a monitor thread (which can
perform a monitor-triggered stop). -/
inductive EOp where
  | start : StartEnv → String → Option String → ℕ → EOp
  | stop : StopEnv → String → EOp
  | monitor : MonitorEnv → ℕ → String → EOp

/-- State transition of a single engine operation. -/
def applyEOp (op : EOp) (st : EngineState) : EngineState :=
  match op with
  | .start env a iid now => (start_instance env st a iid now).state
  | .stop env iid => (stop_instance env st iid).state
  | .monitor env now iid => (monitor_step env now st iid).1

/-- Run a sequence of engine operations. -/
def runEngine (ops : List EOp) (st : EngineState) : EngineState :=
  ops.foldl (fun s op => applyEOp op s) st

/-- Ports held by the currently registered instances, in table order. -/
def portsOf (st : EngineState) : List ℕ :=
  st.instances.map (fun e => e.2.port)

/-- The port-lease invariant: instance ids are distinct, no two registered
instances hold the same port, and the leased set `used_ports` is exactly
the set of ports held by registered instances. -/
def EngineInv (st : EngineState) : Prop :=
  (st.instances.map Prod.fst).Nodup ∧ (portsOf st).Nodup ∧
    st.used_ports = (portsOf st).toFinset

/-- Errors of the manager layer: unknown engine type (also standing for
the uncaught `KeyError` of `self.engines[engine_type]`), duplicate id, or
an engine error propagated out of `engine.start_instance`. -/
inductive MgrErr where
  | unknownEngine : String → MgrErr
  | duplicateInstance : String → MgrErr
  | engineErr : StartErr → MgrErr
deriving DecidableEq

/-- The mutable state of `SITLManager`: the engine table and the
`instance_registry` mapping instance id to engine name. -/
structure ManagerState where
  engines : List (String × EngineState)
  instance_registry : List (String × String)
deriving DecidableEq

/-- A freshly constructed manager holding the single PX4 engine. -/
def initManager : ManagerState := ⟨[("px4", initEngine)], []⟩

/-- Write back an engine's state under its key. -/
def setEngine (l : List (String × EngineState)) (k : String) (v : EngineState) :
    List (String × EngineState) :=
  l.map (fun e => if e.1 == k then (e.1, v) else e)

/-- `SITLManager.start_instance`: resolve the engine, generate the id if
absent, reject ids already in the registry, delegate to the engine, and
record the id→engine mapping only on success.  On engine failure the
engine's (mutated-in-place) state is kept and the error propagates. -/
def mgr_start (env : StartEnv) (m : ManagerState) (engine_type aircraft_type : String)
    (instance_id : Option String) (now : ℕ) : Except MgrErr String × ManagerState :=
  match m.engines.lookup engine_type with
  | none => (.error (.unknownEngine engine_type), m)
  | some est =>
    let iid := instance_id.getD (engine_type ++ "_" ++ aircraft_type ++ "_" ++ toString now)
    if (m.instance_registry.lookup iid).isSome then
      (.error (.duplicateInstance iid), m)
    else
      let r := start_instance env est aircraft_type (some iid) now
      match r.res with
      | .ok actual =>
          (.ok actual,
           ⟨setEngine m.engines engine_type r.state,
            (actual, engine_type) :: m.instance_registry⟩)
      | .error e =>
          (.error (.engineErr e),
           ⟨setEngine m.engines engine_type r.state, m.instance_registry⟩)

/-- `SITLManager.stop_instance`: unknown registry id returns `False`;
otherwise delegate to the owning engine and remove the mapping only when
the engine reported success. -/
def mgr_stop (env : StopEnv) (m : ManagerState) (iid : String) :
    Except MgrErr Bool × ManagerState :=
  match m.instance_registry.lookup iid with
  | none => (.ok false, m)
  | some et =>
    match m.engines.lookup et with
    | none => (.error (.unknownEngine et), m)
    | some est =>
      let r := stop_instance env est iid
      if r.ok then
        (.ok true,
         ⟨setEngine m.engines et r.state,
          m.instance_registry.filter (fun e => e.1 != iid)⟩)
      else
        (.ok false, ⟨setEngine m.engines et r.state, m.instance_registry⟩)

/-- The monitor thread lives inside one engine and reacts to process death
by calling that engine's `stop_instance` directly; the manager's
`instance_registry` is not consulted or updated. -/
def mgr_monitor (env : MonitorEnv) (m : ManagerState) (engine_type : String)
    (now : ℕ) (iid : String) : ManagerState :=
  match m.engines.lookup engine_type with
  | none => m
  | some est =>
      ⟨setEngine m.engines engine_type (monitor_step env now est iid).1,
       m.instance_registry⟩

/-- An operation of the whole system. -/
inductive MOp where
  | mstart : StartEnv → String → String → Option String → ℕ → MOp
  | mstop : StopEnv → String → MOp
  | mmonitor : MonitorEnv → String → ℕ → String → MOp

/-- Whether the operation is a monitor iteration. -/
def MOp.isMonitor : MOp → Bool
  | .mmonitor _ _ _ _ => true
  | _ => false

/-- State transition of a single system operation. -/
def applyMOp (op : MOp) (m : ManagerState) : ManagerState :=
  match op with
  | .mstart env et a iid now => (mgr_start env m et a iid now).2
  | .mstop env iid => (mgr_stop env m iid).2
  | .mmonitor env et now iid => mgr_monitor env m et now iid

/-- Run a sequence of system operations. -/
def runManager (ops : List MOp) (m : ManagerState) : ManagerState :=
  ops.foldl (fun s op => applyMOp op s) m

/-- Number of engines whose instance table registers the given id. -/
def enginesHolding (m : ManagerState) (iid : String) : ℕ :=
  m.engines.countP (fun en => (en.2.instances.lookup iid).isSome)

/-- The registry-consistency property: every id in the manager's
id→engine mapping is registered in exactly one engine's instance table. -/
def RegistryConsistent (m : ManagerState) : Prop :=
  ∀ e ∈ m.instance_registry, enginesHolding m e.1 = 1

/-- A start environment in which everything works: the default catalog,
both processes stay alive, and the router binary is present. -/
def happyEnv : StartEnv := ⟨defaultAircraft, fun _ => true, "", true, true, ""⟩

/-! ### Association-list lemmas -/

theorem lookup_eq_none_iff {β : Type} {l : List (String × β)} {k : String} :
    l.lookup k = none ↔ k ∉ l.map Prod.fst := by
  induction l with
  | nil => simp [List.lookup]
  | cons e t ih =>
      obtain ⟨k', v⟩ := e
      by_cases hk : k = k'
      · subst hk
        simp [List.lookup]
      · simp only [List.lookup, beq_eq_false_iff_ne, ne_eq, hk, not_false_eq_true,
          beq_iff_eq, if_neg, List.map_cons, List.mem_cons, ih]
        rw [show (k == k') = false from beq_eq_false_iff_ne.mpr hk]
        simp [hk, ih]

theorem lookup_mem {β : Type} {l : List (String × β)} {k : String} {v : β}
    (h : l.lookup k = some v) : (k, v) ∈ l := by
  induction l with
  | nil => simp [List.lookup] at h
  | cons e t ih =>
      obtain ⟨k', v'⟩ := e
      by_cases hk : k = k'
      · subst hk
        rw [show List.lookup k ((k, v') :: t) = some v' by simp [List.lookup]] at h
        injection h with h
        subst h
        exact List.mem_cons_self _ _
      · rw [show List.lookup k ((k', v') :: t) = List.lookup k t by
            simp [List.lookup, beq_eq_false_iff_ne.mpr hk]] at h
        exact List.mem_cons_of_mem _ (ih h)

theorem lookup_cons_self {β : Type} {t : List (String × β)} {k : String} {v : β} :
    List.lookup k ((k, v) :: t) = some v := by
  simp [List.lookup]

theorem lookup_cons_ne {β : Type} {t : List (String × β)} {k k' : String} {v : β}
    (h : k ≠ k') : List.lookup k ((k', v) :: t) = List.lookup k t := by
  simp [List.lookup, beq_eq_false_iff_ne.mpr h]

theorem lookup_filter_ne {β : Type} {l : List (String × β)} {k iid : String}
    (hne : k ≠ iid) :
    (l.filter (fun e => e.1 != iid)).lookup k = l.lookup k := by
  induction l with
  | nil => simp
  | cons e t ih =>
      obtain ⟨k', v⟩ := e
      by_cases hk : k' = iid
      · subst hk
        have : ((k', v).1 != k') = false := by simp
        rw [List.filter_cons, if_neg (by simp), lookup_cons_ne hne]
        exact ih
      · rw [List.filter_cons, if_pos (by simpa using hk)]
        by_cases hkk : k = k'
        · subst hkk
          rw [lookup_cons_self, lookup_cons_self]
        · rw [lookup_cons_ne hkk, lookup_cons_ne hkk]
          exact ih

theorem lookup_filter_self {β : Type} {l : List (String × β)} {iid : String} :
    (l.filter (fun e => e.1 != iid)).lookup iid = none := by
  rw [lookup_eq_none_iff]
  intro hmem
  obtain ⟨e, he, hfst⟩ := List.mem_map.mp hmem
  have := (List.mem_filter.mp he).2
  rw [hfst] at this
  simp at this

theorem filter_eq_self_of_not_mem_keys {β : Type} {l : List (String × β)} {iid : String}
    (h : iid ∉ l.map Prod.fst) : l.filter (fun e => e.1 != iid) = l := by
  apply List.filter_eq_self.mpr
  intro e he
  have : e.1 ≠ iid := by
    intro hq
    exact h (List.mem_map.mpr ⟨e, he, hq⟩)
  simpa using this

/-! ### Port allocator -/

/-- Characterization of a successful `get_next_available_port`. -/
theorem get_next_ok {used : Finset ℕ} {p : ℕ} {u : Finset ℕ}
    (h : get_next_available_port used = .ok (p, u)) :
    p ∈ availablePorts ∧ p ∉ used ∧ u = insert p used ∧
      ∀ q ∈ availablePorts, q ∉ used → p ≤ q := by
  unfold get_next_available_port at h
  split at h
  · next hne =>
      simp only [Except.ok.injEq, Prod.mk.injEq] at h
      obtain ⟨hp, hu⟩ := h
      subst hp
      subst hu
      have hm := (availablePorts \ used).min'_mem hne
      rw [Finset.mem_sdiff] at hm
      refine ⟨hm.1, hm.2, rfl, ?_⟩
      intro q hq hq2
      exact Finset.min'_le _ _ (Finset.mem_sdiff.mpr ⟨hq, hq2⟩)
  · exact absurd h (by simp)

/-- Claim C9: with at least one port available, the allocator leases
exactly the numerically smallest available port. -/
theorem acquire_returns_smallest (used : Finset ℕ)
    (h : (availablePorts \ used).Nonempty) :
    ∃ p, get_next_available_port used = .ok (p, insert p used) ∧
      p ∈ availablePorts ∧ p ∉ used ∧
      ∀ q ∈ availablePorts, q ∉ used → p ≤ q := by
  refine ⟨(availablePorts \ used).min' h, ?_⟩
  have hok : get_next_available_port used =
      .ok ((availablePorts \ used).min' h, insert ((availablePorts \ used).min' h) used) := by
    unfold get_next_available_port
    rw [dif_pos h]
  obtain ⟨h1, h2, _, h4⟩ := get_next_ok hok
  exact ⟨hok, h1, h2, h4⟩

set_option maxRecDepth 8000 in
/-- Witness for C9: with only 14550 leased, the next acquire takes 14551. -/
theorem acquire_returns_smallest_witness :
    ∃ p, get_next_available_port {14550} = .ok (p, insert p {14550}) ∧
      p ∈ availablePorts ∧ p ∉ ({14550} : Finset ℕ) ∧
      ∀ q ∈ availablePorts, q ∉ ({14550} : Finset ℕ) → p ≤ q :=
  acquire_returns_smallest {14550} (by decide)

/-! ### Claim C4: start with an exhausted port pool -/

/-- Claim C4 (observed code behaviour): when every port is leased, the
allocator's no-ports error is raised, but the `except` handler's
`self.release_port(port)` references the unassigned local `port`, so an
`UnboundLocalError` (chaining the no-ports error) propagates instead; the
port pool and instance table are left unchanged. -/
theorem start_no_ports_unbound_local (env : StartEnv) (st : EngineState)
    (aircraft_type iid0 : String) (now : ℕ)
    (hfresh : st.instances.lookup iid0 = none)
    (hfull : availablePorts \ st.used_ports = ∅) :
    start_instance env st aircraft_type (some iid0) now =
      ⟨.error (.unboundLocal .noPorts), st, none, none, []⟩ := by
  unfold start_instance
  simp only [Option.getD_some, hfresh, Option.isSome_none, Bool.false_eq_true, if_false]
  have hng : get_next_available_port st.used_ports = .error .noPorts := by
    unfold get_next_available_port
    rw [dif_neg (by rw [hfull]; exact Finset.not_nonempty_empty)]
  rw [hng]

set_option maxRecDepth 8000 in
/-- Witness for C4 at the concrete fully-leased engine state. -/
theorem start_no_ports_unbound_local_witness :
    start_instance happyEnv ⟨[], availablePorts, 0⟩ "x500" (some "i1") 0 =
      ⟨.error (.unboundLocal .noPorts), ⟨[], availablePorts, 0⟩, none, none, []⟩ :=
  start_no_ports_unbound_local happyEnv ⟨[], availablePorts, 0⟩ "x500" "i1" 0 rfl
    (by decide)

/-- With a nonempty pool, acquisition succeeds and leases a fresh port. -/
theorem get_next_ok_of_nonempty (used : Finset ℕ)
    (h : (availablePorts \ used).Nonempty) :
    ∃ p, get_next_available_port used = .ok (p, insert p used) ∧ p ∉ used := by
  refine ⟨(availablePorts \ used).min' h, ?_, ?_⟩
  · unfold get_next_available_port
    rw [dif_pos h]
  · have hm := (availablePorts \ used).min'_mem h
    exact (Finset.mem_sdiff.mp hm).2

/-! ### The startup-verification poll -/

theorem pollStartup_eq_false {alive : ℕ → Bool} {s n : ℕ}
    (h : ∃ i, i < n ∧ alive (s + i) = false) : pollStartup alive s n = false := by
  induction n generalizing s with
  | zero => obtain ⟨i, hi, _⟩ := h; omega
  | succ n ih =>
      obtain ⟨i, hi, hdead⟩ := h
      unfold pollStartup
      cases ha : alive s with
      | false => simp
      | true =>
          simp only [if_pos rfl, ha, if_true]
          apply ih
          cases i with
          | zero => rw [Nat.add_zero] at hdead; rw [ha] at hdead; cases hdead
          | succ j =>
              refine ⟨j, by omega, ?_⟩
              rw [show s + 1 + j = s + (j + 1) by omega]
              exact hdead

theorem pollStartup_eq_true {alive : ℕ → Bool} {s n : ℕ}
    (h : ∀ i, i < n → alive (s + i) = true) : pollStartup alive s n = true := by
  induction n generalizing s with
  | zero => rfl
  | succ n ih =>
      unfold pollStartup
      have h0 : alive s = true := by
        have := h 0 (by omega)
        rwa [Nat.add_zero] at this
      rw [h0]
      simp only [if_true]
      apply ih
      intro i hi
      rw [show s + 1 + i = s + (i + 1) by omega]
      exact h (i + 1) (by omega)

/-! ### Claim C6: unknown vehicle type -/

/-- Claim C6: starting a vehicle type absent from the preset catalog fails
with the unknown-vehicle error, and the port acquired during the attempt
is released before the error propagates: the port pool and instance table
after the call equal those before it. -/
theorem start_unknown_vehicle (env : StartEnv) (st : EngineState)
    (aircraft_type iid0 : String) (now : ℕ)
    (hfresh : st.instances.lookup iid0 = none)
    (hports : (availablePorts \ st.used_ports).Nonempty)
    (hveh : findAircraft env.catalog aircraft_type = none) :
    (start_instance env st aircraft_type (some iid0) now).res =
        .error (.unknownVehicle aircraft_type) ∧
    (start_instance env st aircraft_type (some iid0) now).state.used_ports =
        st.used_ports ∧
    (start_instance env st aircraft_type (some iid0) now).state.instances =
        st.instances := by
  obtain ⟨p, hok, hp⟩ := get_next_ok_of_nonempty st.used_ports hports
  unfold start_instance
  simp only [Option.getD_some, hfresh, Option.isSome_none, Bool.false_eq_true, if_false,
    hok]
  have hpx : start_px4_process env aircraft_type = (.error (.unknownVehicle aircraft_type), false) := by
    unfold start_px4_process
    rw [hveh]
  rw [hpx]
  refine ⟨rfl, ?_, rfl⟩
  simp only [release_port]
  exact Finset.erase_insert hp

set_option maxRecDepth 8000 in
/-- Witness for C6: the default catalog has no aircraft named "f16". -/
theorem start_unknown_vehicle_witness :
    (start_instance happyEnv initEngine "f16" (some "i1") 0).res =
        .error (.unknownVehicle "f16") ∧
    (start_instance happyEnv initEngine "f16" (some "i1") 0).state.used_ports =
        initEngine.used_ports ∧
    (start_instance happyEnv initEngine "f16" (some "i1") 0).state.instances =
        initEngine.instances :=
  start_unknown_vehicle happyEnv initEngine "f16" "i1" 0 rfl (by decide) (by decide)

/-! ### Claim C7: primary process exits during the startup window -/

/-- Claim C7: if the primary process exits at one of the 10 one-second
polls of the startup-verification window, `start_instance` fails with the
launch-failure error carrying the captured stderr, the relay process was
never started (so none is left to terminate), and the acquired port is
released: pool and instance table are unchanged. -/
theorem start_launch_failed (env : StartEnv) (st : EngineState)
    (aircraft_type iid0 : String) (now : ℕ) (ac : Aircraft)
    (hfresh : st.instances.lookup iid0 = none)
    (hports : (availablePorts \ st.used_ports).Nonempty)
    (hveh : findAircraft env.catalog aircraft_type = some ac)
    (hdead : ∃ i, i < 10 ∧ env.px4Alive i = false) :
    (start_instance env st aircraft_type (some iid0) now).res =
        .error (.launchFailed env.px4Stderr) ∧
    (start_instance env st aircraft_type (some iid0) now).state.used_ports =
        st.used_ports ∧
    (start_instance env st aircraft_type (some iid0) now).state.instances =
        st.instances ∧
    (start_instance env st aircraft_type (some iid0) now).routerSpawned = none ∧
    (start_instance env st aircraft_type (some iid0) now).terminated = [] := by
  obtain ⟨p, hok, hp⟩ := get_next_ok_of_nonempty st.used_ports hports
  have hpoll : pollStartup env.px4Alive 0 10 = false := by
    apply pollStartup_eq_false
    obtain ⟨i, hi, hd⟩ := hdead
    exact ⟨i, hi, by rw [Nat.zero_add]; exact hd⟩
  have hpx : start_px4_process env aircraft_type =
      (.error (.launchFailed env.px4Stderr), true) := by
    unfold start_px4_process
    rw [hveh, hpoll]
    simp
  have heq : start_instance env st aircraft_type (some iid0) now =
      ⟨.error (.launchFailed env.px4Stderr),
       { st with used_ports := release_port (insert p st.used_ports) p,
                 nextHandle := st.nextHandle + 1 },
       some st.nextHandle, none, []⟩ := by
    unfold start_instance
    simp only [Option.getD_some, hfresh, Option.isSome_none, Bool.false_eq_true,
      if_false, if_true, hok, hpx]
  rw [heq]
  refine ⟨rfl, ?_, rfl, rfl, rfl⟩
  exact Finset.erase_insert hp

set_option maxRecDepth 8000 in
/-- Witness for C7: the primary dies at the very first poll. -/
theorem start_launch_failed_witness :
    (start_instance ⟨defaultAircraft, fun _ => false, "boom", true, true, ""⟩
        initEngine "x500" (some "i1") 0).res = .error (.launchFailed "boom") ∧
    (start_instance ⟨defaultAircraft, fun _ => false, "boom", true, true, ""⟩
        initEngine "x500" (some "i1") 0).state.used_ports = initEngine.used_ports ∧
    (start_instance ⟨defaultAircraft, fun _ => false, "boom", true, true, ""⟩
        initEngine "x500" (some "i1") 0).state.instances = initEngine.instances ∧
    (start_instance ⟨defaultAircraft, fun _ => false, "boom", true, true, ""⟩
        initEngine "x500" (some "i1") 0).routerSpawned = none ∧
    (start_instance ⟨defaultAircraft, fun _ => false, "boom", true, true, ""⟩
        initEngine "x500" (some "i1") 0).terminated = [] :=
  start_launch_failed ⟨defaultAircraft, fun _ => false, "boom", true, true, ""⟩
    initEngine "x500" "i1" 0 ⟨"x500", "X500 Quadrotor", "gz_x500", "4001"⟩
    rfl (by decide) (by decide) ⟨0, by omega, rfl⟩

/-! ### Claim C10: relay fails after the primary survived -/

/-- Claim C10: when the primary process survives the startup window but
the MAVLink router fails to start (binary missing, or it exits during its
one-second check), the error propagates, the port is released and no
instance is registered — but the running primary process is never
terminated: it was spawned during the call, no termination is applied to
any process, and its handle appears in no instance record. -/
theorem start_router_failure (env : StartEnv) (st : EngineState)
    (aircraft_type iid0 : String) (now : ℕ)
    (hfresh : st.instances.lookup iid0 = none)
    (hports : (availablePorts \ st.used_ports).Nonempty)
    (hveh : (findAircraft env.catalog aircraft_type).isSome)
    (halive : ∀ i, i < 10 → env.px4Alive i = true)
    (hrouter : env.routerFound = false ∨ env.routerAlive = false) :
    ((start_instance env st aircraft_type (some iid0) now).res =
        .error .routerNotFound ∨
     (start_instance env st aircraft_type (some iid0) now).res =
        .error (.routerFailed env.routerStderr)) ∧
    (start_instance env st aircraft_type (some iid0) now).state.used_ports =
        st.used_ports ∧
    (start_instance env st aircraft_type (some iid0) now).state.instances =
        st.instances ∧
    (start_instance env st aircraft_type (some iid0) now).px4Spawned =
        some st.nextHandle ∧
    (start_instance env st aircraft_type (some iid0) now).terminated = [] := by
  obtain ⟨p, hok, hp⟩ := get_next_ok_of_nonempty st.used_ports hports
  obtain ⟨ac, hac⟩ := Option.isSome_iff_exists.mp hveh
  have hpoll : pollStartup env.px4Alive 0 10 = true := by
    apply pollStartup_eq_true
    intro i hi
    rw [Nat.zero_add]
    exact halive i hi
  have hpx : start_px4_process env aircraft_type = (.ok (), true) := by
    unfold start_px4_process
    rw [hac, hpoll]
    simp
  have hrel : release_port (insert p st.used_ports) p = st.used_ports :=
    Finset.erase_insert hp
  have hcase : start_mavlink_router env = (.error .routerNotFound, false) ∨
      start_mavlink_router env = (.error (.routerFailed env.routerStderr), true) := by
    rcases hrouter with hnf | hdied
    · left
      unfold start_mavlink_router
      rw [hnf]
      simp
    · cases hf : env.routerFound with
      | false =>
          left
          unfold start_mavlink_router
          rw [hf]
          simp
      | true =>
          right
          unfold start_mavlink_router
          rw [hf, hdied]
          simp
  rcases hcase with hmr | hmr
  · have heq : start_instance env st aircraft_type (some iid0) now =
        ⟨.error .routerNotFound,
         { st with used_ports := release_port (insert p st.used_ports) p,
                   nextHandle := st.nextHandle + 1 },
         some st.nextHandle, none, []⟩ := by
      unfold start_instance
      simp only [Option.getD_some, hfresh, Option.isSome_none, Bool.false_eq_true,
        if_false, if_true, hok, hpx, hmr]
    rw [heq]
    exact ⟨Or.inl rfl, hrel, rfl, rfl, rfl⟩
  · have heq : start_instance env st aircraft_type (some iid0) now =
        ⟨.error (.routerFailed env.routerStderr),
         { st with used_ports := release_port (insert p st.used_ports) p,
                   nextHandle := st.nextHandle + 2 },
         some st.nextHandle, some (st.nextHandle + 1), []⟩ := by
      unfold start_instance
      simp only [Option.getD_some, hfresh, Option.isSome_none, Bool.false_eq_true,
        if_false, if_true, hok, hpx, hmr]
    rw [heq]
    exact ⟨Or.inr rfl, hrel, rfl, rfl, rfl⟩

set_option maxRecDepth 8000 in
/-- Witness for C10: router binary missing; the primary runs unsupervised. -/
theorem start_router_failure_witness :
    ((start_instance ⟨defaultAircraft, fun _ => true, "", false, true, ""⟩
        initEngine "x500" (some "i1") 0).res = .error .routerNotFound ∨
     (start_instance ⟨defaultAircraft, fun _ => true, "", false, true, ""⟩
        initEngine "x500" (some "i1") 0).res = .error (.routerFailed "")) ∧
    (start_instance ⟨defaultAircraft, fun _ => true, "", false, true, ""⟩
        initEngine "x500" (some "i1") 0).state.used_ports = initEngine.used_ports ∧
    (start_instance ⟨defaultAircraft, fun _ => true, "", false, true, ""⟩
        initEngine "x500" (some "i1") 0).state.instances = initEngine.instances ∧
    (start_instance ⟨defaultAircraft, fun _ => true, "", false, true, ""⟩
        initEngine "x500" (some "i1") 0).px4Spawned = some initEngine.nextHandle ∧
    (start_instance ⟨defaultAircraft, fun _ => true, "", false, true, ""⟩
        initEngine "x500" (some "i1") 0).terminated = [] :=
  start_router_failure ⟨defaultAircraft, fun _ => true, "", false, true, ""⟩
    initEngine "x500" "i1" 0 rfl (by decide) (by decide)
    (fun _ _ => rfl) (Or.inl rfl)

/-! ### Claim C5: termination errors during stop -/

/-- A registered instance whose stop will be attempted in the C5 scenario. -/
def cInst : PX4Instance := ⟨"a", "x500", 14550, 0, some 1, "running", 0, 0⟩

/-- Engine state registering `cInst` with its port leased. -/
def cState : EngineState := ⟨[("a", cInst)], {14550}, 2⟩

/-- A stop environment in which every process-group termination raises. -/
def failStop : StopEnv := ⟨fun _ => true⟩

/-- Counterexample to C5 as stated: when terminating the router raises,
`stop_instance` returns `False` with the primary process never terminated,
the port still leased and the instance still registered — no best-effort
cleanup happens. -/
theorem stop_termination_error_counterexample :
    (stop_instance failStop cState "a").ok = false ∧
    (stop_instance failStop cState "a").state.instances.lookup "a" = some cInst ∧
    14550 ∈ (stop_instance failStop cState "a").state.used_ports ∧
    (stop_instance failStop cState "a").terminated = [] := by
  decide

/-- Claim C5 (amended): if terminating the router (the first owned process
handled) raises, the single `try`/`except` of `stop_instance` aborts the
whole cleanup: the call returns `False`, no process is terminated, the
port stays leased and the instance stays registered. -/
theorem stop_termination_error_aborts (env : StopEnv) (st : EngineState)
    (iid : String) (inst : PX4Instance) (hr : ℕ)
    (h1 : st.instances.lookup iid = some inst)
    (h2 : inst.mavlink_router_process = some hr)
    (h3 : env.termFails hr = true) :
    stop_instance env st iid = ⟨false, st, []⟩ := by
  unfold stop_instance
  rw [h1]
  simp only [h2, h3, if_true]

/-- Witness for the amended C5 at the concrete scenario. -/
theorem stop_termination_error_aborts_witness :
    stop_instance failStop cState "a" = ⟨false, cState, []⟩ :=
  stop_termination_error_aborts failStop cState "a" cInst 1 (by decide) rfl rfl

/-! ### Characterization of start_instance outcomes -/

/-- Every `start_instance` call either fails, leaving the instance table
and the port pool exactly as they were, or succeeds, registering one new
instance in `"running"` status holding the freshly leased port. -/
theorem start_instance_cases (env : StartEnv) (st : EngineState) (a : String)
    (iid : Option String) (now : ℕ) :
    (∃ e, (start_instance env st a iid now).res = .error e ∧
      (start_instance env st a iid now).state.instances = st.instances ∧
      (start_instance env st a iid now).state.used_ports = st.used_ports) ∨
    (∃ p inst rid, (start_instance env st a iid now).res = .ok rid ∧
      st.instances.lookup rid = none ∧
      p ∉ st.used_ports ∧ p ∈ availablePorts ∧
      inst.port = p ∧ inst.status = "running" ∧
      (start_instance env st a iid now).state =
        ⟨(rid, inst) :: st.instances, insert p st.used_ports, st.nextHandle + 2⟩) := by
  cases hdup : (st.instances.lookup (iid.getD (a ++ "_" ++ toString now))).isSome with
  | true =>
      have heq : start_instance env st a iid now =
          ⟨.error .duplicateInstance, st, none, none, []⟩ := by
        unfold start_instance
        simp only [hdup, if_true]
      left
      exact ⟨.duplicateInstance, by rw [heq], by rw [heq], by rw [heq]⟩
  | false =>
      cases hgn : get_next_available_port st.used_ports with
      | error e =>
          have heq : start_instance env st a iid now =
              ⟨.error (.unboundLocal e), st, none, none, []⟩ := by
            unfold start_instance
            simp only [hdup, Bool.false_eq_true, if_false, hgn]
          left
          exact ⟨.unboundLocal e, by rw [heq], by rw [heq], by rw [heq]⟩
      | ok pu =>
          obtain ⟨p, u⟩ := pu
          obtain ⟨hpa, hpu, huu, _⟩ := get_next_ok hgn
          subst huu
          rcases hpx : start_px4_process env a with ⟨e | u2, sp⟩
          · have heq : start_instance env st a iid now =
                ⟨.error e,
                 { st with used_ports := release_port (insert p st.used_ports) p,
                           nextHandle := if sp then st.nextHandle + 1 else st.nextHandle },
                 if sp then some st.nextHandle else none, none, []⟩ := by
              unfold start_instance
              simp only [hdup, Bool.false_eq_true, if_false, hgn, hpx]
            left
            refine ⟨e, by rw [heq], by rw [heq], ?_⟩
            rw [heq]
            exact Finset.erase_insert hpu
          · rcases hmr : start_mavlink_router env with ⟨e | u3, sp2⟩
            · have heq : start_instance env st a iid now =
                  ⟨.error e,
                   { st with used_ports := release_port (insert p st.used_ports) p,
                             nextHandle := if sp2 then st.nextHandle + 2 else st.nextHandle + 1 },
                   some st.nextHandle,
                   if sp2 then some (st.nextHandle + 1) else none, []⟩ := by
                unfold start_instance
                simp only [hdup, Bool.false_eq_true, if_false, hgn, hpx, hmr]
              left
              refine ⟨e, by rw [heq], by rw [heq], ?_⟩
              rw [heq]
              exact Finset.erase_insert hpu
            · have heq : start_instance env st a iid now =
                  ⟨.ok (iid.getD (a ++ "_" ++ toString now)),
                   ⟨(iid.getD (a ++ "_" ++ toString now),
                     ⟨iid.getD (a ++ "_" ++ toString now), a, p, st.nextHandle,
                      some (st.nextHandle + 1), "running", now, now⟩) :: st.instances,
                    insert p st.used_ports, st.nextHandle + 2⟩,
                   some st.nextHandle, some (st.nextHandle + 1), []⟩ := by
                unfold start_instance
                simp only [hdup, Bool.false_eq_true, if_false, hgn, hpx, hmr]
              right
              refine ⟨p, _, iid.getD (a ++ "_" ++ toString now), by rw [heq], ?_,
                hpu, hpa, rfl, rfl, by rw [heq]⟩
              rcases hli : st.instances.lookup (iid.getD (a ++ "_" ++ toString now)) with
                _ | v
              · rfl
              · rw [hli] at hdup
                cases hdup

/-! ### Lookup after in-place field updates -/

theorem lookup_updateInstances {l : List (String × PX4Instance)} {iid : String}
    {inst : PX4Instance} (f : PX4Instance → PX4Instance)
    (h : l.lookup iid = some inst) :
    (updateInstances l iid f).lookup iid = some (f inst) := by
  induction l with
  | nil => simp [List.lookup] at h
  | cons e t ih =>
      obtain ⟨k, v⟩ := e
      by_cases hk : iid = k
      · subst hk
        rw [lookup_cons_self] at h
        injection h with h
        subst h
        unfold updateInstances
        rw [List.map_cons]
        simp only [beq_self_eq_true, if_true]
        exact lookup_cons_self
      · rw [lookup_cons_ne hk] at h
        unfold updateInstances
        rw [List.map_cons]
        have hne : (k == iid) = false := beq_eq_false_iff_ne.mpr fun he => hk he.symm
        simp only [hne, Bool.false_eq_true, if_false]
        rw [lookup_cons_ne hk]
        exact ih h

/-! ### Claim C3: status of a freshly started instance -/

set_option maxRecDepth 8000 in
/-- Counterexample to C3 as stated: a successful start registers the
instance with status `"running"`, not `"starting"` — `start_instance`
passes `status="running"` when building the record. -/
theorem start_status_counterexample :
    (start_instance happyEnv initEngine "x500" (some "a") 5).res = .ok "a" ∧
    ((start_instance happyEnv initEngine "x500" (some "a") 5).state.instances.lookup
        "a").map PX4Instance.status = some "running" ∧
    ((start_instance happyEnv initEngine "x500" (some "a") 5).state.instances.lookup
        "a").map PX4Instance.status ≠ some "starting" := by
  decide

/-- Claim C3 (amended): a successful `start_instance` registers its
instance already in `"running"` status (not `"starting"`), and the
monitor's `Starting`→`Running` transition does exist: one monitor
iteration on an instance whose status is `"starting"` with both owned
processes alive rewrites the status to `"running"` and refreshes the
heartbeat (a branch that never fires for instances created by
`start_instance`). -/
theorem start_running_and_monitor_promotes :
    (∀ (env : StartEnv) (st : EngineState) (a : String) (iid : Option String)
        (now : ℕ) (rid : String),
      (start_instance env st a iid now).res = .ok rid →
      ∃ inst, (start_instance env st a iid now).state.instances.lookup rid = some inst ∧
        inst.status = "running") ∧
    (∀ (env : MonitorEnv) (now : ℕ) (st : EngineState) (iid : String)
        (inst : PX4Instance) (hr : ℕ),
      st.instances.lookup iid = some inst →
      inst.status = "starting" →
      inst.mavlink_router_process = some hr →
      env.alive inst.process = true → env.alive hr = true →
      ∃ inst', (monitor_step env now st iid).1.instances.lookup iid = some inst' ∧
        inst'.status = "running" ∧ inst'.last_heartbeat = now) := by
  constructor
  · intro env st a iid now rid h
    rcases start_instance_cases env st a iid now with
      ⟨e, he, _, _⟩ | ⟨p, inst, rid', hok, _, _, _, _, hstat, hstate⟩
    · rw [he] at h
      cases h
    · rw [hok] at h
      injection h with h
      subst h
      refine ⟨inst, ?_, hstat⟩
      rw [hstate]
      exact lookup_cons_self
  · intro env now st iid inst hr hl hstat hrp halive hralive
    unfold monitor_step
    rw [hl]
    simp only [hrp, halive, hralive, Bool.not_true, Bool.or_self, Bool.false_eq_true,
      if_false]
    refine ⟨_, lookup_updateInstances _ hl, ?_, rfl⟩
    simp only [hstat]
    rfl

set_option maxRecDepth 8000 in
/-- Witness for the amended C3: a concrete successful start, and a
concrete monitor iteration promoting a `"starting"` instance. -/
theorem start_running_and_monitor_promotes_witness :
    (∃ inst,
      (start_instance happyEnv initEngine "x500" (some "a") 5).state.instances.lookup
          "a" = some inst ∧ inst.status = "running") ∧
    (∃ inst',
      (monitor_step ⟨fun _ => true, fun _ => false⟩ 7
          ⟨[("a", ⟨"a", "x500", 14550, 0, some 1, "starting", 0, 0⟩)], {14550}, 2⟩
          "a").1.instances.lookup "a" = some inst' ∧
        inst'.status = "running" ∧ inst'.last_heartbeat = 7) :=
  ⟨start_running_and_monitor_promotes.1 happyEnv initEngine "x500" (some "a") 5 "a"
      (by decide),
   start_running_and_monitor_promotes.2 ⟨fun _ => true, fun _ => false⟩ 7
      ⟨[("a", ⟨"a", "x500", 14550, 0, some 1, "starting", 0, 0⟩)], {14550}, 2⟩
      "a" ⟨"a", "x500", 14550, 0, some 1, "starting", 0, 0⟩ 1
      rfl rfl rfl rfl rfl⟩

/-! ### Claim C1: the port-lease invariant -/

theorem nodup_map_filter {γ : Type} [DecidableEq γ] (f : (String × PX4Instance) → γ)
    (p : (String × PX4Instance) → Bool) {l : List (String × PX4Instance)}
    (h : (l.map f).Nodup) : ((l.filter p).map f).Nodup :=
  h.sublist ((l.filter_sublist).map f)

/-- Deleting the looked-up entry removes exactly its port from the port
multiset: on the `toFinset` level, it is an `erase`. -/
theorem filter_remove_toFinset {l : List (String × PX4Instance)} {iid : String}
    {inst : PX4Instance}
    (hkeys : (l.map Prod.fst).Nodup)
    (hports : (l.map (fun e => e.2.port)).Nodup)
    (hl : l.lookup iid = some inst) :
    ((l.filter (fun e => e.1 != iid)).map (fun e => e.2.port)).toFinset
      = (l.map (fun e => e.2.port)).toFinset.erase inst.port := by
  induction l with
  | nil => simp [List.lookup] at hl
  | cons e t ih =>
      obtain ⟨k, v⟩ := e
      have hkeys' : (t.map Prod.fst).Nodup := (List.nodup_cons.mp (by simpa using hkeys)).2
      have hports' : (t.map (fun e => e.2.port)).Nodup :=
        (List.nodup_cons.mp (by simpa using hports)).2
      have hvp : v.port ∉ t.map (fun e => e.2.port) :=
        (List.nodup_cons.mp (by simpa using hports)).1
      by_cases hk : k = iid
      · subst hk
        rw [lookup_cons_self] at hl
        injection hl with hl
        subst hl
        have hkt : k ∉ t.map Prod.fst := (List.nodup_cons.mp (by simpa using hkeys)).1
        rw [List.filter_cons, if_neg (by simp)]
        rw [filter_eq_self_of_not_mem_keys hkt]
        simp only [List.map_cons, List.toFinset_cons]
        rw [Finset.erase_insert (by simpa using hvp)]
      · have hki : iid ≠ k := fun he => hk he.symm
        rw [lookup_cons_ne hki] at hl
        rw [List.filter_cons, if_pos (by simpa using hk)]
        simp only [List.map_cons, List.toFinset_cons]
        rw [ih hkeys' hports' hl]
        have hne : v.port ≠ inst.port := by
          have hmem : inst.port ∈ t.map (fun e => e.2.port) :=
            List.mem_map.mpr ⟨(iid, inst), lookup_mem hl, rfl⟩
          intro he
          rw [he] at hvp
          exact hvp hmem
        rw [Finset.erase_insert_of_ne hne]

/-- `stop_instance` preserves the port-lease invariant: either it fails
leaving the state untouched, or it removes one instance and releases
exactly that instance's port. -/
theorem EngineInv_stop (env : StopEnv) (st : EngineState) (iid : String)
    (hinv : EngineInv st) : EngineInv (stop_instance env st iid).state := by
  obtain ⟨hkeys, hports, hused⟩ := hinv
  have hfin : ∀ inst, st.instances.lookup iid = some inst → EngineInv
      ⟨st.instances.filter (fun e => e.1 != iid),
       release_port st.used_ports inst.port, st.nextHandle⟩ := by
    intro inst hl
    refine ⟨nodup_map_filter _ _ hkeys, nodup_map_filter _ _ hports, ?_⟩
    show release_port st.used_ports inst.port = _
    unfold release_port portsOf
    rw [hused]
    exact (filter_remove_toFinset hkeys hports hl).symm
  unfold stop_instance
  split
  · exact ⟨hkeys, hports, hused⟩
  · rename_i inst heq
    split
    · split
      · exact ⟨hkeys, hports, hused⟩
      · split
        · exact ⟨hkeys, hports, hused⟩
        · exact hfin inst heq
    · split
      · exact ⟨hkeys, hports, hused⟩
      · exact hfin inst heq

/-- `start_instance` preserves the port-lease invariant. -/
theorem EngineInv_start (env : StartEnv) (st : EngineState) (a : String)
    (iid : Option String) (now : ℕ)
    (hinv : EngineInv st) : EngineInv (start_instance env st a iid now).state := by
  obtain ⟨hkeys, hports, hused⟩ := hinv
  rcases start_instance_cases env st a iid now with
    ⟨e, _, hi, hu⟩ | ⟨p, inst, rid, _, hfresh, hpu, _, hport, _, hstate⟩
  · refine ⟨?_, ?_, ?_⟩ <;> simp only [EngineInv, portsOf, hi, hu] <;> assumption
  · rw [hstate]
    have hridk : rid ∉ st.instances.map Prod.fst := lookup_eq_none_iff.mp hfresh
    have hpl : p ∉ st.instances.map (fun e => e.2.port) := by
      intro hmem
      apply hpu
      rw [hused]
      unfold portsOf at *
      exact List.mem_toFinset.mpr hmem
    refine ⟨?_, ?_, ?_⟩
    · simpa using List.nodup_cons.mpr ⟨hridk, hkeys⟩
    · unfold portsOf
      rw [List.map_cons, hport]
      exact List.nodup_cons.mpr ⟨hpl, hports⟩
    · unfold portsOf
      rw [List.map_cons, hport, List.toFinset_cons]
      unfold portsOf at hused
      rw [hused]

theorem updateInstances_map_fst (l : List (String × PX4Instance)) (iid : String)
    (f : PX4Instance → PX4Instance) :
    (updateInstances l iid f).map Prod.fst = l.map Prod.fst := by
  unfold updateInstances
  rw [List.map_map]
  apply List.map_congr_left
  intro e _
  by_cases he : e.1 = iid
  · show (if (e.1 == iid) = true then (e.1, f e.2) else e).1 = e.1
    rw [if_pos (beq_iff_eq.mpr he)]
  · show (if (e.1 == iid) = true then (e.1, f e.2) else e).1 = e.1
    rw [if_neg (by simp [he])]

theorem updateInstances_map_port (l : List (String × PX4Instance)) (iid : String)
    (f : PX4Instance → PX4Instance) (hf : ∀ i, (f i).port = i.port) :
    (updateInstances l iid f).map (fun e => e.2.port) = l.map (fun e => e.2.port) := by
  unfold updateInstances
  rw [List.map_map]
  apply List.map_congr_left
  intro e _
  by_cases he : e.1 = iid
  · show (if (e.1 == iid) = true then (e.1, f e.2) else e).2.port = e.2.port
    rw [if_pos (beq_iff_eq.mpr he)]
    exact hf e.2
  · show (if (e.1 == iid) = true then (e.1, f e.2) else e).2.port = e.2.port
    rw [if_neg (by simp [he])]

/-- Updating fields that do not touch the port preserves the invariant. -/
theorem EngineInv_update (st : EngineState) (iid : String)
    (f : PX4Instance → PX4Instance) (hf : ∀ i, (f i).port = i.port)
    (hinv : EngineInv st) :
    EngineInv ⟨updateInstances st.instances iid f, st.used_ports, st.nextHandle⟩ := by
  obtain ⟨hkeys, hports, hused⟩ := hinv
  refine ⟨?_, ?_, ?_⟩
  · rw [updateInstances_map_fst]
    exact hkeys
  · show ((updateInstances st.instances iid f).map (fun e => e.2.port)).Nodup
    rw [updateInstances_map_port _ _ _ hf]
    exact hports
  · show st.used_ports = ((updateInstances st.instances iid f).map (fun e => e.2.port)).toFinset
    rw [updateInstances_map_port _ _ _ hf]
    exact hused

/-- One monitor iteration preserves the port-lease invariant. -/
theorem EngineInv_monitor (env : MonitorEnv) (now : ℕ) (st : EngineState)
    (iid : String) (hinv : EngineInv st) :
    EngineInv (monitor_step env now st iid).1 := by
  unfold monitor_step
  rcases hl : st.instances.lookup iid with _ | inst
  · exact hinv
  · cases hcond : (!env.alive inst.process ||
        !(match inst.mavlink_router_process with
          | some hr => env.alive hr
          | none => false)) with
    | true =>
        simp only [hcond, if_true]
        exact EngineInv_stop _ _ _
          (EngineInv_update st iid (fun i => { i with status := "failed" })
            (fun _ => rfl) hinv)
    | false =>
        simp only [hcond, Bool.false_eq_true, if_false]
        exact EngineInv_update st iid _ (fun _ => rfl) hinv

/-- Every single engine operation preserves the invariant. -/
theorem EngineInv_applyEOp (op : EOp) (st : EngineState) (hinv : EngineInv st) :
    EngineInv (applyEOp op st) := by
  cases op with
  | start env a iid now => exact EngineInv_start env st a iid now hinv
  | stop env iid => exact EngineInv_stop env st iid hinv
  | monitor env now iid => exact EngineInv_monitor env now st iid hinv

theorem EngineInv_runEngine (ops : List EOp) (st : EngineState) (hinv : EngineInv st) :
    EngineInv (runEngine ops st) := by
  induction ops generalizing st with
  | nil => exact hinv
  | cons op rest ih => exact ih _ (EngineInv_applyEOp op st hinv)

/-- Claim C1: after any sequence of `start_instance`, `stop_instance` and
monitor iterations (which perform the monitor-triggered stops) on a fresh
engine, the leased-port set equals the set of ports held by registered
instances, and no two registered instances share a port. -/
theorem port_lease_invariant (ops : List EOp) :
    EngineInv (runEngine ops initEngine) := by
  apply EngineInv_runEngine
  refine ⟨List.nodup_nil, List.nodup_nil, rfl⟩

/-! ### Claim C8: stopping twice, and stopping unknown ids -/

theorem stop_instance_not_found (env : StopEnv) (st : EngineState) (iid : String)
    (hl : st.instances.lookup iid = none) :
    stop_instance env st iid = ⟨false, st, []⟩ := by
  unfold stop_instance
  rw [hl]

theorem stop_instance_success (env : StopEnv) (st : EngineState) (iid : String)
    (inst : PX4Instance) (hl : st.instances.lookup iid = some inst)
    (hterm : ∀ h, env.termFails h = false) :
    (stop_instance env st iid).ok = true ∧
    (stop_instance env st iid).state =
      ⟨st.instances.filter (fun e => e.1 != iid),
       release_port st.used_ports inst.port, st.nextHandle⟩ := by
  constructor
  · unfold stop_instance
    rw [hl]
    rcases hrp : inst.mavlink_router_process with _ | hr <;>
      simp only [hrp, hterm, Bool.false_eq_true, if_false]
  · unfold stop_instance
    rw [hl]
    rcases hrp : inst.mavlink_router_process with _ | hr <;>
      simp only [hrp, hterm, Bool.false_eq_true, if_false]

theorem mgr_stop_not_found (env : StopEnv) (m : ManagerState) (iid : String)
    (h : m.instance_registry.lookup iid = none) :
    mgr_stop env m iid = (.ok false, m) := by
  unfold mgr_stop
  rw [h]

/-- Claim C8: stopping a registered instance succeeds (removing it from
the registry), stopping it again afterwards returns the benign `false`
without changing anything, and stopping an id that was never registered
likewise returns `false` rather than raising. -/
theorem stop_twice_semantics :
    (∀ (env : StopEnv) (m : ManagerState) (iid et : String) (est : EngineState)
        (inst : PX4Instance),
      m.instance_registry.lookup iid = some et →
      m.engines.lookup et = some est →
      est.instances.lookup iid = some inst →
      (∀ h, env.termFails h = false) →
      (mgr_stop env m iid).1 = .ok true ∧
      (mgr_stop env m iid).2.instance_registry.lookup iid = none ∧
      ∀ env2, mgr_stop env2 (mgr_stop env m iid).2 iid =
        (.ok false, (mgr_stop env m iid).2)) ∧
    (∀ (env : StopEnv) (m : ManagerState) (iid : String),
      m.instance_registry.lookup iid = none →
      mgr_stop env m iid = (.ok false, m)) := by
  constructor
  · intro env m iid et est inst hreg heng hinst hterm
    obtain ⟨hok, _⟩ := stop_instance_success env est iid inst hinst hterm
    have heq : mgr_stop env m iid =
        (.ok true,
         ⟨setEngine m.engines et (stop_instance env est iid).state,
          m.instance_registry.filter (fun e => e.1 != iid)⟩) := by
      unfold mgr_stop
      simp only [hreg, heng, hok, if_true]
    rw [heq]
    refine ⟨rfl, lookup_filter_self, ?_⟩
    intro env2
    exact mgr_stop_not_found env2 _ iid lookup_filter_self
  · intro env m iid h
    exact mgr_stop_not_found env m iid h

/-- A stop environment in which no termination raises. -/
def okStop : StopEnv := ⟨fun _ => false⟩

/-- Manager state registering `cInst` under id "a" in the px4 engine. -/
def cMgr : ManagerState := ⟨[("px4", cState)], [("a", "px4")]⟩

/-- Witness for C8 at a concrete registered instance and a fresh id. -/
theorem stop_twice_semantics_witness :
    ((mgr_stop okStop cMgr "a").1 = .ok true ∧
     (mgr_stop okStop cMgr "a").2.instance_registry.lookup "a" = none ∧
     ∀ env2, mgr_stop env2 (mgr_stop okStop cMgr "a").2 "a" =
       (.ok false, (mgr_stop okStop cMgr "a").2)) ∧
    mgr_stop okStop cMgr "zzz" = (.ok false, cMgr) :=
  ⟨stop_twice_semantics.1 okStop cMgr "a" "px4" cState cInst rfl rfl (by decide)
      (fun _ => rfl),
   stop_twice_semantics.2 okStop cMgr "zzz" rfl⟩

/-! ### Claim C2: registry consistency -/

theorem setEngine_singleton (k : String) (est v : EngineState) :
    setEngine [(k, est)] k v = [(k, v)] := by
  unfold setEngine
  simp

theorem countP_holding_singleton (k : String) (est : EngineState) (id : String) :
    List.countP (fun en => ((en : String × EngineState).2.instances.lookup id).isSome)
        [(k, est)] = if (est.instances.lookup id).isSome then 1 else 0 := by
  cases h : (est.instances.lookup id).isSome <;>
    simp [List.countP_cons, h]

/-- Registry consistency over a single-engine manager, in lookup form. -/
theorem RegistryConsistent_singleton {k : String} {est : EngineState}
    {reg : List (String × String)} :
    RegistryConsistent ⟨[(k, est)], reg⟩ ↔
      ∀ e ∈ reg, (est.instances.lookup e.1).isSome = true := by
  unfold RegistryConsistent enginesHolding
  constructor
  · intro h e he
    have h1 := h e he
    rw [countP_holding_singleton] at h1
    by_cases hs : (est.instances.lookup e.1).isSome = true
    · exact hs
    · rw [if_neg hs] at h1
      omega
  · intro h e he
    rw [countP_holding_singleton, if_pos (h e he)]

/-- The induction invariant for the manager: there is exactly the one
`"px4"` engine, and the registry is consistent with its table. -/
def MInv (m : ManagerState) : Prop :=
  (∃ est, m.engines = [("px4", est)]) ∧ RegistryConsistent m

theorem MInv_elim {m : ManagerState} {est : EngineState}
    (heng : m.engines = [("px4", est)]) (hcons : RegistryConsistent m) :
    ∀ e ∈ m.instance_registry, (est.instances.lookup e.1).isSome = true := by
  intro e he
  have h1 := hcons e he
  unfold enginesHolding at h1
  rw [heng, countP_holding_singleton] at h1
  by_cases hs : (est.instances.lookup e.1).isSome = true
  · exact hs
  · rw [if_neg hs] at h1
    omega

theorem MInv_mstart (env : StartEnv) (m : ManagerState) (et a : String)
    (iid : Option String) (now : ℕ) (hinv : MInv m) :
    MInv (mgr_start env m et a iid now).2 := by
  obtain ⟨⟨est, heng⟩, hcons⟩ := hinv
  have hc := MInv_elim heng hcons
  unfold mgr_start
  by_cases hpx : et = "px4"
  · subst hpx
    have hl : m.engines.lookup "px4" = some est := by
      rw [heng]
      exact lookup_cons_self
    cases hdup : (m.instance_registry.lookup
        (iid.getD ("px4" ++ "_" ++ a ++ "_" ++ toString now))).isSome with
    | true =>
        simp only [hl, hdup, if_true]
        exact ⟨⟨est, heng⟩, hcons⟩
    | false =>
        simp only [hl, hdup, Bool.false_eq_true, if_false]
        rcases start_instance_cases env est a
            (some (iid.getD ("px4" ++ "_" ++ a ++ "_" ++ toString now))) now with
          ⟨e, herr, hi, _⟩ | ⟨p, inst, rid, hok2, hfresh, _, _, _, _, hstate⟩
        · simp only [herr]
          refine ⟨⟨_, by rw [heng]; exact setEngine_singleton _ _ _⟩, ?_⟩
          show RegistryConsistent ⟨setEngine m.engines "px4" _, m.instance_registry⟩
          rw [heng, setEngine_singleton]
          apply RegistryConsistent_singleton.mpr
          intro e2 he2
          rw [hi]
          exact hc e2 he2
        · simp only [hok2]
          refine ⟨⟨_, by rw [heng]; exact setEngine_singleton _ _ _⟩, ?_⟩
          show RegistryConsistent
            ⟨setEngine m.engines "px4" _, (rid, "px4") :: m.instance_registry⟩
          rw [heng, setEngine_singleton]
          apply RegistryConsistent_singleton.mpr
          intro e2 he2
          rcases List.mem_cons.mp he2 with he2 | he2
          · subst he2
            rw [hstate]
            show (List.lookup rid ((rid, inst) :: est.instances)).isSome = true
            rw [lookup_cons_self]
            rfl
          · rw [hstate]
            show (List.lookup e2.1 ((rid, inst) :: est.instances)).isSome = true
            by_cases hne : e2.1 = rid
            · have := hc e2 he2
              rw [hne, hfresh] at this
              cases this
            · rw [lookup_cons_ne hne]
              exact hc e2 he2
  · have hl : m.engines.lookup et = none := by
      rw [heng, lookup_cons_ne hpx]
      rfl
    simp only [hl]
    exact ⟨⟨est, heng⟩, hcons⟩

/-- Case analysis of `stop_instance`: failure leaves the state untouched;
success removes exactly the entries keyed by the stopped id. -/
theorem stop_state_cases (env : StopEnv) (st : EngineState) (iid : String) :
    ((stop_instance env st iid).ok = false ∧ (stop_instance env st iid).state = st) ∨
    ((stop_instance env st iid).ok = true ∧
      (stop_instance env st iid).state.instances =
        st.instances.filter (fun e => e.1 != iid)) := by
  unfold stop_instance
  split
  · left
    exact ⟨rfl, rfl⟩
  · split
    · split
      · left
        exact ⟨rfl, rfl⟩
      · split
        · left
          exact ⟨rfl, rfl⟩
        · right
          exact ⟨rfl, rfl⟩
    · split
      · left
        exact ⟨rfl, rfl⟩
      · right
        exact ⟨rfl, rfl⟩

theorem MInv_mstop (env : StopEnv) (m : ManagerState) (iid : String)
    (hinv : MInv m) : MInv (mgr_stop env m iid).2 := by
  obtain ⟨⟨est, heng⟩, hcons⟩ := hinv
  have hc := MInv_elim heng hcons
  unfold mgr_stop
  rcases hreg : m.instance_registry.lookup iid with _ | et2
  · simp only [hreg]
    exact ⟨⟨est, heng⟩, hcons⟩
  · by_cases hpx : et2 = "px4"
    · subst hpx
      have hl : m.engines.lookup "px4" = some est := by
        rw [heng]
        exact lookup_cons_self
      simp only [hreg, hl]
      rcases stop_state_cases env est iid with ⟨hok, hstate⟩ | ⟨hok, hinsts⟩
      · simp only [hok, Bool.false_eq_true, if_false]
        refine ⟨⟨_, by rw [heng]; exact setEngine_singleton _ _ _⟩, ?_⟩
        show RegistryConsistent ⟨setEngine m.engines "px4" _, m.instance_registry⟩
        rw [heng, setEngine_singleton]
        apply RegistryConsistent_singleton.mpr
        intro e2 he2
        rw [hstate]
        exact hc e2 he2
      · simp only [hok, if_true]
        refine ⟨⟨_, by rw [heng]; exact setEngine_singleton _ _ _⟩, ?_⟩
        show RegistryConsistent
          ⟨setEngine m.engines "px4" _,
           m.instance_registry.filter (fun e => e.1 != iid)⟩
        rw [heng, setEngine_singleton]
        apply RegistryConsistent_singleton.mpr
        intro e2 he2
        obtain ⟨he2m, he2ne⟩ := List.mem_filter.mp he2
        have hne : e2.1 ≠ iid := by simpa using he2ne
        rw [hinsts]
        show ((List.filter (fun e => e.1 != iid) est.instances).lookup e2.1).isSome = true
        rw [lookup_filter_ne hne]
        exact hc e2 he2m
    · have hl : m.engines.lookup et2 = none := by
        rw [heng, lookup_cons_ne hpx]
        rfl
      simp only [hreg, hl]
      exact ⟨⟨est, heng⟩, hcons⟩

theorem MInv_apply_nonmonitor (op : MOp) (m : ManagerState)
    (hop : op.isMonitor = false) (hinv : MInv m) : MInv (applyMOp op m) := by
  cases op with
  | mstart env et a iid now => exact MInv_mstart env m et a iid now hinv
  | mstop env iid => exact MInv_mstop env m iid hinv
  | mmonitor env et now iid => simp [MOp.isMonitor] at hop

theorem MInv_run (ops : List MOp) (m : ManagerState)
    (hops : ∀ op ∈ ops, op.isMonitor = false) (hinv : MInv m) :
    MInv (runManager ops m) := by
  induction ops generalizing m with
  | nil => exact hinv
  | cons op rest ih =>
      exact ih _ (fun o ho => hops o (List.mem_cons_of_mem _ ho))
        (MInv_apply_nonmonitor op m (hops op (List.mem_cons_self _ _)) hinv)

/-- Claim C2 (amended): for every sequence of manager start and manager
stop operations — monitor iterations excluded — every id in the manager's
id→engine mapping is registered in exactly one engine's instance table.
The exclusion is forced: a monitor-triggered stop removes the instance
from the engine's table without updating the manager's mapping. -/
theorem registry_consistent_without_monitor (ops : List MOp)
    (hops : ∀ op ∈ ops, op.isMonitor = false) :
    RegistryConsistent (runManager ops initManager) :=
  (MInv_run ops initManager hops
    ⟨⟨initEngine, rfl⟩, fun e he => absurd he (List.not_mem_nil e)⟩).2

set_option maxRecDepth 8000 in
/-- Witness for the amended C2: one concrete start followed by a stop. -/
theorem registry_consistent_without_monitor_witness :
    RegistryConsistent (runManager
      [MOp.mstart happyEnv "px4" "x500" (some "a") 0, MOp.mstop okStop "a"]
      initManager) :=
  registry_consistent_without_monitor
    [MOp.mstart happyEnv "px4" "x500" (some "a") 0, MOp.mstop okStop "a"]
    (fun op hop => by
      rcases List.mem_cons.mp hop with h | h
      · rw [h]
        rfl
      · rw [List.mem_singleton.mp h]
        rfl)

/-- A monitor environment observing every process as dead. -/
def menvDead : MonitorEnv := ⟨fun _ => false, fun _ => false⟩

set_option maxRecDepth 8000 in
/-- Counterexample to C2 as stated: start an instance, then let the
monitor react to process death.  The monitor calls the engine's
`stop_instance` directly, so the instance disappears from every engine
table while the manager's registry still maps its id to `"px4"`. -/
theorem registry_dangling_counterexample :
    (runManager [MOp.mstart happyEnv "px4" "x500" (some "a") 0,
        MOp.mmonitor menvDead "px4" 5 "a"] initManager).instance_registry.lookup "a" =
      some "px4" ∧
    (∀ e ∈ (runManager [MOp.mstart happyEnv "px4" "x500" (some "a") 0,
        MOp.mmonitor menvDead "px4" 5 "a"] initManager).engines,
      e.2.instances.lookup "a" = none) ∧
    ¬ RegistryConsistent (runManager [MOp.mstart happyEnv "px4" "x500" (some "a") 0,
        MOp.mmonitor menvDead "px4" 5 "a"] initManager) := by
  unfold RegistryConsistent
  decide

end CloudSITL
